import Mathlib

/-!
Verification development for the GitHub repository analyzer backend.

The repository is a Python backend service.  The components the claims
concern are embedded shallowly below, translated from the source:

* `RepoAnalyzerService._flatten_tree`  (src/app/services/repo_analyzer_service.py)
* `RepoAnalyzerService._detect_config_file` and `CONFIG_FILES`
* `OpenAIService.send_prompt` (the prompt cache; src/app/services/openai_service.py)
* `RepoAnalyzerService.analyze` (the orchestrator)

External library behaviour (hashlib.md5, json.loads, the LLM client) is
modelled by explicit function parameters, since those are opaque libraries
outside the repository; every property proved holds for all instantiations
of those parameters.  Python `str` values are embedded as Lean `String`
(a sequence of code points, matching Python character semantics).
-/

/-- A directory-listing entry as consumed by `_flatten_tree`.
In the source an entry is a dict with keys `name`, `type`, and
(for `type == "tree"`) a nested `object` dict whose `entries` key holds the
child list.  `objEntries` encodes the two optional layers:
`none` ↦ the `object` key is absent (so `entry.get("object", {})` yields `{}`),
`some none` ↦ `object` is present but its `entries` key is absent or null,
`some (some l)` ↦ `object.entries` is the child list `l`. -/
inductive Entry : Type where
  | mk (name : String) (etype : String) (objEntries : Option (Option (List Entry)))
deriving Repr

def Entry.name : Entry → String
  | .mk n _ _ => n

def Entry.etype : Entry → String
  | .mk _ t _ => t

def Entry.objEntries : Entry → Option (Option (List Entry))
  | .mk _ _ o => o

/-- The child list extracted by
`entry.get("object", {}).get("entries", [])` followed by the
`if not entries` guard of the recursive call: any missing/null layer
collapses to the empty list. -/
def nested_list : Option (Option (List Entry)) → List Entry
  | some (some l) => l
  | _ => []

/-- The loop body of `RepoAnalyzerService._flatten_tree`: walk the entry
list in order; a `"tree"` entry contributes its slash-terminated path
followed by the recursive flattening of its children under the extended
prefix; any other entry contributes its bare path. -/
def flatten_go (pfx : String) : List Entry → List String
  | [] => []
  | .mk nm ty obj :: rest =>
    let path := pfx ++ nm
    if ty == "tree" then
      (path ++ "/") :: ((match obj with
        | some (some l) => flatten_go (path ++ "/") l
        | _ => []) ++ flatten_go pfx rest)
    else
      path :: flatten_go pfx rest


/-- `RepoAnalyzerService._flatten_tree(entries, prefix)`.  The `entries`
argument may be null (`none`), mirroring `if not entries: return paths`. -/
def flatten_tree (entries : Option (List Entry)) (pfx : String) : List String :=
  match entries with
  | none => []
  | some l => flatten_go pfx l

/-- `RepoAnalyzerService.CONFIG_FILES`: the priority-ordered candidate list. -/
def CONFIG_FILES : List String :=
  [ "package.json",
    "pom.xml",
    "build.gradle",
    "pyproject.toml",
    "requirements.txt",
    "go.mod",
    "Cargo.toml",
    "composer.json",
    "Gemfile",
    "setup.py" ]

/-- `RepoAnalyzerService._detect_config_file(files)`: return the first
candidate of `CONFIG_FILES` that occurs in `files`, else `None`. -/
def detect_config_file (files : List String) : Option String :=
  CONFIG_FILES.find? (fun config_file => files.contains config_file)

/-! ### Unfolding lemmas for the flattener -/

lemma flatten_go_nil (pfx : String) : flatten_go pfx [] = [] := by
  simp [flatten_go]

lemma flatten_go_cons_tree (pfx nm : String) (obj : Option (Option (List Entry)))
    (rest : List Entry) :
    flatten_go pfx (Entry.mk nm "tree" obj :: rest) =
      (pfx ++ nm ++ "/") ::
        (flatten_go (pfx ++ nm ++ "/") (nested_list obj) ++ flatten_go pfx rest) := by
  match obj with
  | none => simp [flatten_go, nested_list]
  | some none => simp [flatten_go, nested_list]
  | some (some l) => simp [flatten_go, nested_list]

lemma flatten_go_cons_file (pfx nm ty : String) (obj : Option (Option (List Entry)))
    (rest : List Entry) (hty : ty ≠ "tree") :
    flatten_go pfx (Entry.mk nm ty obj :: rest) = (pfx ++ nm) :: flatten_go pfx rest := by
  rw [flatten_go.eq_def]
  simp [hty]

/-- **C1.** The flattener is depth-first and order-preserving: flattening a
cons emits the head entry's contribution followed by the untouched
flattening of its siblings; a `"tree"` (directory) entry contributes its
slash-terminated path immediately before the flattening of its children
(under the extended prefix); and the concrete listing
`[{name:"src", type:"tree" (directory), children:[{name:"main.ext", type:"blob" (file)}]}]`
flattens to exactly `["src/", "src/main.ext"]`. -/
theorem flatten_tree_depth_first :
    (∀ (pfx nm : String) (obj : Option (Option (List Entry))) (rest : List Entry),
      flatten_go pfx (Entry.mk nm "tree" obj :: rest) =
        (pfx ++ nm ++ "/") ::
          (flatten_go (pfx ++ nm ++ "/") (nested_list obj) ++ flatten_go pfx rest)) ∧
    (∀ (pfx nm ty : String) (obj : Option (Option (List Entry))) (rest : List Entry),
      ty ≠ "tree" →
      flatten_go pfx (Entry.mk nm ty obj :: rest) = (pfx ++ nm) :: flatten_go pfx rest) ∧
    flatten_tree (some [Entry.mk "src" "tree"
      (some (some [Entry.mk "main.ext" "blob" none]))]) "" = ["src/", "src/main.ext"] := by
  refine ⟨flatten_go_cons_tree, flatten_go_cons_file, ?_⟩
  simp [flatten_tree, flatten_go]

/-- Witness for C1: the file-entry clause applied at a concrete input. -/
theorem flatten_tree_depth_first_witness :
    flatten_go "" [Entry.mk "main.ext" "blob" none] = ("" ++ "main.ext") :: flatten_go "" [] :=
  flatten_tree_depth_first.2.1 "" "main.ext" "blob" none [] (by decide)

/-- **C9.** Flattening a missing/null entry sequence or an empty entry
sequence yields the empty path list (and, being a total function, raises
no error). -/
theorem flatten_tree_empty :
    ∀ pfx : String, flatten_tree none pfx = [] ∧ flatten_tree (some []) pfx = [] := by
  intro pfx
  exact ⟨rfl, by simp [flatten_tree, flatten_go]⟩

/-- **C10.** A `"tree"` entry whose `object` dict is absent (`none`) or
whose `object.entries` field is absent (`some none`) is handled totally:
only its own slash-terminated path is emitted and the recursion continues
with its siblings, as if the child list were empty. -/
theorem flatten_tree_missing_children :
    ∀ (pfx nm : String) (rest : List Entry),
      flatten_go pfx (Entry.mk nm "tree" none :: rest) =
        (pfx ++ nm ++ "/") :: flatten_go pfx rest ∧
      flatten_go pfx (Entry.mk nm "tree" (some none) :: rest) =
        (pfx ++ nm ++ "/") :: flatten_go pfx rest := by
  intro pfx nm rest
  constructor <;> simp [flatten_go]

/-! ### The config-file detector -/

/-- `List.find?` returns an element satisfying the predicate that is
preceded only by elements falsifying it. -/
lemma find?_split {α : Type} (p : α → Bool) :
    ∀ (l : List α) (c : α), l.find? p = some c →
      p c = true ∧ ∃ pre post, l = pre ++ c :: post ∧ ∀ x ∈ pre, p x = false := by
  intro l
  induction l with
  | nil => intro c h; simp [List.find?] at h
  | cons a t ih =>
    intro c h
    rw [List.find?] at h
    cases ha : p a with
    | true =>
      rw [ha] at h
      obtain rfl : a = c := by simpa using h
      exact ⟨ha, [], t, rfl, by simp⟩
    | false =>
      rw [ha] at h
      obtain ⟨hc, pre, post, rfl, hpre⟩ := ih c h
      refine ⟨hc, a :: pre, post, rfl, ?_⟩
      intro x hx
      rcases List.mem_cons.mp hx with rfl | hx'
      · exact ha
      · exact hpre x hx'

/-- **C2.** The detector returns the first candidate of the fixed priority
list `CONFIG_FILES` occurring as an exact entry of the path list: a
returned candidate is a member of both lists and every higher-priority
candidate is absent from the path list; the result is `none` exactly when
no candidate occurs; and over `["package.json", "README.md"]` it returns
`package.json` while over `["README.md"]` it returns `none`. -/
theorem detect_config_file_first_match :
    (∀ (files : List String) (c : String), detect_config_file files = some c →
      c ∈ CONFIG_FILES ∧ c ∈ files ∧
        ∃ pre post, CONFIG_FILES = pre ++ c :: post ∧ ∀ c' ∈ pre, c' ∉ files) ∧
    (∀ files : List String,
      detect_config_file files = none ↔ ∀ c ∈ CONFIG_FILES, c ∉ files) ∧
    detect_config_file ["package.json", "README.md"] = some "package.json" ∧
    detect_config_file ["README.md"] = none := by
  refine ⟨?_, ?_, by decide, by decide⟩
  · intro files c h
    obtain ⟨hc, pre, post, heq, hpre⟩ := find?_split _ _ _ h
    refine ⟨by rw [heq]; simp, List.elem_iff.mp hc, pre, post, heq, ?_⟩
    intro c' hc' hmem
    have : files.contains c' = true := List.elem_iff.mpr hmem
    rw [hpre c' hc'] at this
    exact Bool.false_ne_true this
  · intro files
    rw [detect_config_file, List.find?_eq_none]
    constructor
    · intro h c hc hmem
      exact h c hc (List.elem_iff.mpr hmem)
    · intro h c hc hcont
      exact h c hc (List.elem_iff.mp hcont)

/-- Witness for C2: the characterization applied to the concrete list
`["pom.xml"]`, where the detector returns `pom.xml`. -/
theorem detect_config_file_first_match_witness :
    "pom.xml" ∈ CONFIG_FILES ∧ "pom.xml" ∈ ["pom.xml"] ∧
      ∃ pre post, CONFIG_FILES = pre ++ "pom.xml" :: post ∧
        ∀ c' ∈ pre, c' ∉ ["pom.xml"] :=
  detect_config_file_first_match.1 ["pom.xml"] "pom.xml" (by decide)

/-- **C8.** Detection is invariant under permutation of the input path
list: it depends only on which candidates are present, with ties broken by
`CONFIG_FILES` order. -/
theorem detect_config_file_perm_invariant (l l' : List String) (h : l.Perm l') :
    detect_config_file l = detect_config_file l' := by
  have hmem : (fun config_file => l.contains config_file) =
      (fun config_file => l'.contains config_file) := by
    funext c
    rw [Bool.eq_iff_iff, List.elem_iff, List.elem_iff]
    exact h.mem_iff
  rw [detect_config_file, detect_config_file, hmem]

/-- Witness for C8: swapping the two entries of a concrete path list does
not change the detected config file. -/
theorem detect_config_file_perm_invariant_witness :
    detect_config_file ["README.md", "go.mod"] = detect_config_file ["go.mod", "README.md"] :=
  detect_config_file_perm_invariant _ _ (List.Perm.swap "go.mod" "README.md" [])

/-! ### The prompt cache (`OpenAIService.send_prompt`)

`hashlib.md5(...).hexdigest()` and `json.loads` are external library
functions; they are modelled as explicit function parameters `md5hex` and
`json_loads` (both fixed pure functions), so every theorem below holds for
all instantiations of them. -/

/-- The cache key computed by `send_prompt`:
`"openai:" + hashlib.md5((system_prompt + user_prompt).encode()).hexdigest()`. -/
def cache_key (md5hex : String → String) (system_prompt user_prompt : String) : String :=
  "openai:" ++ md5hex (system_prompt ++ user_prompt)

/-- The Redis store visible to `send_prompt`, as a key/value association
list (most recent `set` first).  The `ex=3600` expiry is not modelled: no
claim spans an expiry boundary. -/
abbrev RedisStore := List (String × String)

/-- `await self.redis.get(key)`: the most recently stored value under the
key, or `none`. -/
def redis_get (st : RedisStore) (k : String) : Option String :=
  (st.find? (fun p => p.1 == k)).map Prod.snd

/-- `await self.redis.set(key, value, ex=3600)`. -/
def redis_set (st : RedisStore) (k v : String) : RedisStore :=
  (k, v) :: st

/-- Python truthiness of `cached_data` in `if cached_data:`: a hit
requires a present, non-empty cached string. -/
def truthy : Option String → Bool
  | none => false
  | some v => !(v == "")

/-- The observable outcome of one `send_prompt` call: the parsed result
(`none` when `json.loads` raises), the Redis store afterwards, and whether
the upstream LLM client was called. -/
structure SendOutcome (J : Type) where
  result : Option J
  store : RedisStore
  called_upstream : Bool
deriving Repr

/-- `OpenAIService.send_prompt(system_prompt, user_prompt)` as a state
transformer over the Redis store.  `upstream` is the content string the
LLM client would return if called.  On a hit the cached text is parsed and
returned without calling upstream; on a miss the upstream content is
stored under the key (before the final parse, as in the source) and its
parse is returned. -/
def send_prompt {J : Type} (md5hex : String → String) (json_loads : String → Option J)
    (upstream : String) (st : RedisStore) (system_prompt user_prompt : String) :
    SendOutcome J :=
  let ck := cache_key md5hex system_prompt user_prompt
  let cached_data := redis_get st ck
  if truthy cached_data then
    { result := json_loads (cached_data.getD ""), store := st, called_upstream := false }
  else
    { result := json_loads upstream, store := redis_set st ck upstream,
      called_upstream := true }

/-- **C3.** The cache key is a pure, deterministic function of the prompt
content alone: in the embedding its only inputs are the two prompt strings
(and the fixed hash function) — no clock, randomness or process state
occurs — so identical prompt text always yields the identical key. -/
theorem cache_key_deterministic (md5hex : String → String)
    (s u s' u' : String) (hs : s = s') (hu : u = u') :
    cache_key md5hex s u = cache_key md5hex s' u' := by
  rw [hs, hu]

/-- Witness for C3: two syntactically different spellings of the same
prompt text receive the same key. -/
theorem cache_key_deterministic_witness :
    cache_key (fun s => s) ("sys" ++ "tem") "user" = cache_key (fun s => s) "system" "user" :=
  cache_key_deterministic (fun s => s) ("sys" ++ "tem") "user" "system" "user" rfl rfl

/-- **C4.** Calling the cache twice with identical prompts, where the
first call misses and stores the (non-empty) upstream JSON text: the
second call parses the stored text, returns a result identical to the
first, and does not call upstream — whatever content (`upstream2`) a
second upstream call would have produced. -/
theorem prompt_cache_hit_after_miss {J : Type} (md5hex : String → String)
    (json_loads : String → Option J) (upstream upstream2 : String)
    (st : RedisStore) (s u : String)
    (hmiss : truthy (redis_get st (cache_key md5hex s u)) = false)
    (hne : upstream ≠ "") :
    (send_prompt md5hex json_loads upstream st s u).called_upstream = true ∧
    (send_prompt md5hex json_loads upstream2
        (send_prompt md5hex json_loads upstream st s u).store s u).result =
      (send_prompt md5hex json_loads upstream st s u).result ∧
    (send_prompt md5hex json_loads upstream2
        (send_prompt md5hex json_loads upstream st s u).store s u).called_upstream = false ∧
    (send_prompt md5hex json_loads upstream2
        (send_prompt md5hex json_loads upstream st s u).store s u).result =
      json_loads upstream := by
  have h1 : send_prompt md5hex json_loads upstream st s u =
      { result := json_loads upstream,
        store := redis_set st (cache_key md5hex s u) upstream,
        called_upstream := true } := by
    rw [send_prompt]
    simp [hmiss]
  have hget : redis_get (redis_set st (cache_key md5hex s u) upstream)
      (cache_key md5hex s u) = some upstream := by
    simp [redis_get, redis_set, List.find?]
  have h2 : send_prompt md5hex json_loads upstream2
      (redis_set st (cache_key md5hex s u) upstream) s u =
      { result := json_loads upstream,
        store := redis_set st (cache_key md5hex s u) upstream,
        called_upstream := false } := by
    rw [send_prompt]
    simp [hget, truthy, hne]
  rw [h1]
  simp only [h2]
  exact ⟨trivial, trivial, trivial, trivial⟩

/-- Witness for C4 at concrete inputs: empty store, prompts `"a"`/`"b"`,
first upstream content `"x"`, hypothetical second upstream content `"y"`. -/
theorem prompt_cache_hit_after_miss_witness :
    (send_prompt (fun s => s) some "x" [] "a" "b").called_upstream = true ∧
    (send_prompt (fun s => s) some "y"
        (send_prompt (fun s => s) some "x" [] "a" "b").store "a" "b").result =
      (send_prompt (fun s => s) some "x" [] "a" "b").result ∧
    (send_prompt (fun s => s) some "y"
        (send_prompt (fun s => s) some "x" [] "a" "b").store "a" "b").called_upstream = false ∧
    (send_prompt (fun s => s) some "y"
        (send_prompt (fun s => s) some "x" [] "a" "b").store "a" "b").result =
      some "x" :=
  prompt_cache_hit_after_miss (fun s => s) some "x" "y" [] "a" "b" (by decide) (by decide)

/-- **C5, counterexample.** The claim fails as stated: the key hashes the
bare concatenation `system_prompt + user_prompt`, so the distinct prompt
pairs `("ab", "c")` and `("a", "bc")` concatenate to the same text
`"abc"` and receive the same cache key.  (The two keys coincide for every
hash function, the real `hashlib.md5` included, because the hashed input
strings are equal.) -/
theorem cache_key_pair_collision :
    (("ab", "c") : String × String) ≠ ("a", "bc") ∧
    cache_key (fun s => s) "ab" "c" = cache_key (fun s => s) "a" "bc" :=
  ⟨by decide, rfl⟩

/-- **C5, amended.** Two prompt pairs receive the same cache key exactly
when the hash of their concatenated system+user text is the same; in
particular distinct pairs whose concatenations coincide share a stored
cache entry, and pairs with distinct concatenations get distinct keys
precisely when the hash does not collide on them. -/
theorem cache_key_eq_iff (md5hex : String → String) (s u s' u' : String) :
    cache_key md5hex s u = cache_key md5hex s' u' ↔
      md5hex (s ++ u) = md5hex (s' ++ u') := by
  rw [cache_key, cache_key]
  constructor
  · intro h
    have := congrArg String.data h
    rw [String.data_append, String.data_append] at this
    have := List.append_cancel_left this
    exact congrArg String.mk this
  · intro h
    rw [h]

/-! ### The analysis orchestrator (`RepoAnalyzerService.analyze`) -/

/-- Python string slicing `s[:n]`: the first `n` characters (code points)
of `s`, or all of `s` when it is shorter. -/
def str_slice (s : String) (n : Nat) : String := ⟨s.data.take n⟩

/-- The context dict assembled by `analyze` and passed to
`openai_service.analyze_repository`. -/
structure AnalysisContext where
  name : String
  desc : String
  files : List String
  langs : List (Option String)
  topics : List (Option String)
  readme : String
  config_file : Option String
  config_content : String
deriving Repr

/-- The per-request data `analyze` obtains from the external GitHub
service, as consumed at its use sites. -/
structure AnalyzeInputs where
  /-- `repo_details.get("name", "Unknown")`; `none` = key absent. -/
  repoName : Option String
  /-- `repo_details.get("description") or ""`; `none` = absent or null. -/
  repoDesc : Option String
  /-- the language names extracted from `languages.edges`. -/
  langNames : List (Option String)
  /-- the topic names extracted from `repositoryTopics.nodes`. -/
  topicNames : List (Option String)
  /-- `repo_details.get("readme")` then `.get("text", "")`: outer `none` =
  readme absent or null, inner `none` = `text` key absent. -/
  readmeText : Option (Option String)
  /-- the argument `(directory_tree or {}).get("entries", [])` passed to
  `_flatten_tree`; `none` = the entries value is null. -/
  entriesArg : Option (List Entry)
  /-- outcome of `github_service.get_file_content(owner, repo, "HEAD:" +
  detected)`: `.error` = the awaited call raised; `.ok none` = it returned
  a falsy `file_data`; `.ok (some none)` = `file_data` lacks a `text` key;
  `.ok (some (some t))` = the fetched text is `t`.  Consulted only when a
  config file was detected. -/
  fileFetch : Except String (Option (Option String))

/-- The body of `RepoAnalyzerService.analyze` after the external fetches:
flatten the tree, detect a config file, fetch its content guarded by
`try/except` (falling back to `""`), truncate with `[:2000]`, and build
the context dict (README truncated with `[:500]`). -/
def build_context (inp : AnalyzeInputs) : AnalysisContext :=
  let files := flatten_tree inp.entriesArg ""
  let detected_config := detect_config_file files
  let config_content :=
    match detected_config with
    | none => ""
    | some _ =>
      match inp.fileFetch with
      | .error _ => ""
      | .ok none => ""
      | .ok (some t) => str_slice (t.getD "") 2000
  { name := inp.repoName.getD "Unknown"
    desc := inp.repoDesc.getD ""
    files := files
    langs := inp.langNames
    topics := inp.topicNames
    readme := str_slice (match inp.readmeText with
      | some (some t) => t
      | _ => "") 500
    config_file := detected_config
    config_content := config_content }

/-- `RepoAnalyzerService.analyze`: build the context and return the result
of `openai_service.analyze_repository` on it (`summarize` abstracts the
summarization client). -/
def analyze {R : Type} (summarize : AnalysisContext → R) (inp : AnalyzeInputs) : R :=
  summarize (build_context inp)

lemma str_slice_data (s : String) (n : Nat) : (str_slice s n).data = s.data.take n := rfl

lemma str_slice_length (s : String) (n : Nat) :
    (str_slice s n).length = min n s.length := by
  show (s.data.take n).length = min n s.data.length
  exact List.length_take n s.data

lemma str_slice_of_le (s : String) (n : Nat) (h : s.length ≤ n) : str_slice s n = s := by
  cases s with
  | mk d =>
    show String.mk (d.take n) = String.mk d
    rw [List.take_of_length_le h]

/-- **C6.** The orchestrator applies hard prefix truncation at the fixed
budgets: the config content placed in the context is `[:2000]` of the
fetched text and the README field is `[:500]` of the readme text — each a
prefix of the input, of exactly the budget's length when the input is
longer, and the unchanged input when not. -/
theorem analyze_truncation (inp : AnalyzeInputs) (c t r : String)
    (hdet : detect_config_file (flatten_tree inp.entriesArg "") = some c)
    (hfetch : inp.fileFetch = .ok (some (some t)))
    (hreadme : inp.readmeText = some (some r)) :
    ((build_context inp).config_content = str_slice t 2000 ∧
      (build_context inp).config_content.data <+: t.data ∧
      (2000 < t.length → (build_context inp).config_content.length = 2000) ∧
      (t.length ≤ 2000 → (build_context inp).config_content = t)) ∧
    ((build_context inp).readme = str_slice r 500 ∧
      (build_context inp).readme.data <+: r.data ∧
      (500 < r.length → (build_context inp).readme.length = 500) ∧
      (r.length ≤ 500 → (build_context inp).readme = r)) := by
  have hcc : (build_context inp).config_content = str_slice t 2000 := by
    simp [build_context, hdet, hfetch]
  have hrd : (build_context inp).readme = str_slice r 500 := by
    simp [build_context, hreadme]
  refine ⟨⟨hcc, ?_, ?_, ?_⟩, hrd, ?_, ?_, ?_⟩
  · rw [hcc, str_slice_data]
    exact List.take_prefix _ _
  · intro h
    rw [hcc, str_slice_length]
    omega
  · intro h
    rw [hcc, str_slice_of_le t 2000 h]
  · rw [hrd, str_slice_data]
    exact List.take_prefix _ _
  · intro h
    rw [hrd, str_slice_length]
    omega
  · intro h
    rw [hrd, str_slice_of_le r 500 h]

/-- Concrete orchestrator inputs for the witnesses: a root-level
`package.json` next to a README, a successful config fetch, and a short
readme text. -/
def sample_inputs : AnalyzeInputs :=
  { repoName := some "demo"
    repoDesc := none
    langNames := [some "Python"]
    topicNames := []
    readmeText := some (some "hello")
    entriesArg := some [Entry.mk "package.json" "blob" none, Entry.mk "README.md" "blob" none]
    fileFetch := .ok (some (some "cfg")) }

/-- `sample_inputs` with the config-content fetch raising. -/
def sample_inputs_err : AnalyzeInputs :=
  { sample_inputs with fileFetch := .error "boom" }

/-- Witness for C6 at `sample_inputs` (both texts below their budgets). -/
theorem analyze_truncation_witness :
    ((build_context sample_inputs).config_content = str_slice "cfg" 2000 ∧
      (build_context sample_inputs).config_content.data <+: "cfg".data ∧
      (2000 < "cfg".length → (build_context sample_inputs).config_content.length = 2000) ∧
      ("cfg".length ≤ 2000 → (build_context sample_inputs).config_content = "cfg")) ∧
    ((build_context sample_inputs).readme = str_slice "hello" 500 ∧
      (build_context sample_inputs).readme.data <+: "hello".data ∧
      (500 < "hello".length → (build_context sample_inputs).readme.length = 500) ∧
      ("hello".length ≤ 500 → (build_context sample_inputs).readme = "hello")) :=
  analyze_truncation sample_inputs "package.json" "cfg" "hello"
    (by simp [sample_inputs, flatten_tree, flatten_go]; decide) rfl rfl

/-- **C7.** When a config file was detected but fetching its content
raises, the error is swallowed: the context carries the empty config
content and `analyze` still returns the summarization client's result on
that context. -/
theorem analyze_config_fetch_error_recovery {R : Type} (summarize : AnalysisContext → R)
    (inp : AnalyzeInputs) (c e : String)
    (hdet : detect_config_file (flatten_tree inp.entriesArg "") = some c)
    (herr : inp.fileFetch = .error e) :
    (build_context inp).config_content = "" ∧
    analyze summarize inp = summarize (build_context inp) := by
  refine ⟨?_, rfl⟩
  simp [build_context, hdet, herr]

/-- Witness for C7 at `sample_inputs_err` with a concrete summarizer. -/
theorem analyze_config_fetch_error_recovery_witness :
    (build_context sample_inputs_err).config_content = "" ∧
    analyze (fun ctx => ctx.files.length) sample_inputs_err =
      (fun ctx => ctx.files.length) (build_context sample_inputs_err) :=
  analyze_config_fetch_error_recovery (fun ctx => ctx.files.length) sample_inputs_err
    "package.json" "boom"
    (by simp [sample_inputs_err, sample_inputs, flatten_tree, flatten_go]; decide) rfl
